import Mathlib

/-!
Verification development for the pyetm curve mapping/regionalisation
utilities and the scenario client's result-curve cache.

The repository's public surface (per its examples and specification) is:
  * `categorise_curves curves mapping` — aggregate raw curve columns into
    user-defined category columns by signed summation;
  * `regionalise_curves curves reg` — residual-mode regionalisation of an
    aggregate curve table over a fraction table;
  * `regionalise_node curves reg node` — detailed curves of a single node;
  * `Client` — holds scenario state and caches result curves, resetting
    all cached curves whenever input parameters change.

Tables are embedded as time-indexed frames over exact rationals: the row
index is a list of time steps, columns a list of names, and `entry` gives
the cell value at a time step and column.
-/

/-- A time-indexed curve table: rows are time steps, columns are named
signals, `entry t c` is the value of column `c` at time step `t`. -/
structure Frame where
  index : List Nat
  columns : List String
  entry : Nat → String → ℚ

/-- Modelled from the spec: the mapping table of `categorise_curves`
(`pyetm.utils.categorise_curves` is not in the provided sources).  It is
keyed by original curve name and gives each key a target category label
and an optional direction/sign multiplier. -/
structure CurveMapping where
  keys : List String
  cat : String → String
  sign : String → ℚ

/-- Modelled from the spec: the regionalisation (fraction) table.  Rows
are nodes, columns align with the category signals of the curve table,
and `frac n c` is the fraction of column `c` attributed to node `n`. -/
structure Reg where
  nodes : List String
  columns : List String
  frac : String → String → ℚ

/-- Column alignment between a curve table and a fraction table: the two
column sets coincide. -/
def Aligned (curves : Frame) (reg : Reg) : Prop :=
  (∀ c ∈ curves.columns, c ∈ reg.columns) ∧
  (∀ c ∈ reg.columns, c ∈ curves.columns)

instance (curves : Frame) (reg : Reg) : Decidable (Aligned curves reg) := by
  unfold Aligned; exact instDecidableAnd

/-- Modelled from the spec: the signed per-category accumulation of
`categorise_curves`.  For each original column present in both the curve
table and the mapping, look up its category label and sign; the value of
output column `l` at time step `t` is the signed sum of the member
columns' values. -/
def categorise_curves (curves : Frame) (mapping : CurveMapping) : Frame :=
  let shared := curves.columns.filter (fun c => c ∈ mapping.keys)
  { index := curves.index
    columns := (shared.map mapping.cat).dedup
    entry := fun t l =>
      shared.foldr
        (fun c acc =>
          if mapping.cat c = l then mapping.sign c * curves.entry t c + acc
          else acc)
        0 }

/-- Modelled from the spec: the detailed curve table of a single node,
each category column scaled by that node's fraction for that column:
`node_curves[t,c] = curves[t,c] * fractions[node,c]`. -/
def nodeDetail (curves : Frame) (reg : Reg) (node : String) : Frame :=
  { index := curves.index
    columns := curves.columns
    entry := fun t c => curves.entry t c * reg.frac node c }

/-- Modelled from the spec: `regionalise_node curves reg node`
(`pyetm.utils.regionalise_node` is not in the provided sources).
Misaligned columns fail fast with a shape/alignment error; an unknown
node identifier fails with a lookup error; otherwise the node's detailed
curves are returned. -/
def regionalise_node (curves : Frame) (reg : Reg) (node : String) :
    Except String Frame :=
  if Aligned curves reg then
    if node ∈ reg.nodes then .ok (nodeDetail curves reg node)
    else .error "regionalise_node: unknown node identifier"
  else .error "regionalise_node: fraction columns do not match curve columns"

/-- Modelled from the spec: the residual frame of `regionalise_curves`,
with values scaled per column by the allocation summed over the included
nodes: `residual[t,c] = curves[t,c] * sum_over_included_nodes
(fractions[node,c])`, where without a node selection every node of the
fraction table is included. -/
def residualFrame (curves : Frame) (reg : Reg) : Frame :=
  { index := curves.index
    columns := curves.columns
    entry := fun t c =>
      curves.entry t c * (reg.nodes.map (fun n => reg.frac n c)).sum }

/-- Modelled from the spec: `regionalise_curves curves reg`
(`pyetm.utils.regionalise_curves` is not in the provided sources).  It
takes only the curve table and the fraction table — no node-selection
argument — and returns the residual curve table; misaligned columns fail
fast with a shape/alignment error. -/
def regionalise_curves (curves : Frame) (reg : Reg) :
    Except String Frame :=
  if Aligned curves reg then .ok (residualFrame curves reg)
  else .error "regionalise_curves: fraction columns do not match curve columns"

/-- Modelled from the spec: the residual defined as "all nodes minus one"
— `residual[t,c] = curves[t,c] * (1 - fractions_excluded_node[c])` for a
designated excluded node. -/
def regionalise_excluding (curves : Frame) (reg : Reg) (node : String) :
    Except String Frame :=
  if Aligned curves reg then
    if node ∈ reg.nodes then
      .ok { index := curves.index
            columns := curves.columns
            entry := fun t c => curves.entry t c * (1 - reg.frac node c) }
    else .error "regionalise_excluding: unknown node identifier"
  else .error "regionalise_excluding: fraction columns do not match curve columns"

/-- Modelled from the spec: the scenario client's instance state (the
`Client` class is not in the provided sources).  It holds the scenario
identifier, the scenario input parameters, and cached result curves. -/
structure ClientState where
  scenario_id : Nat
  input_params : List (String × ℚ)
  cached_ecurves : Option Frame

/-- Modelled from the spec: overriding scenario input parameters with
user values — a user value replaces the stored value of its key, other
stored parameters are kept. -/
def updateParams (ps : List (String × ℚ)) (vals : List (String × ℚ)) :
    List (String × ℚ) :=
  vals ++ ps.filter (fun p => (vals.find? (fun q => q.fst = p.fst)).isNone)

/-- Modelled from the spec: the `input_parameters` setter of `Client`.
Changing any scenario input parameter resets every cached result
curve. -/
def set_input_parameters (s : ClientState) (vals : List (String × ℚ)) :
    ClientState :=
  { s with input_params := updateParams s.input_params vals
           cached_ecurves := none }

/-- Modelled from the spec: the `hourly_electricity_curves` result
property of `Client`.  The remote evaluation is abstracted by the oracle
`etm`, a function of the scenario id and its input parameters.  A cached
curve table is returned as is; otherwise the result is requested from
the remote service and cached. -/
def hourly_electricity_curves (etm : Nat → List (String × ℚ) → Frame)
    (s : ClientState) : Frame × ClientState :=
  match s.cached_ecurves with
  | some f => (f, s)
  | none =>
      let f := etm s.scenario_id s.input_params
      (f, { s with cached_ecurves := some f })

/-- The single-time-step curve table of the spec's worked example:
`wind = 100`, `solar = 50`. -/
def exampleCurves : Frame :=
  { index := [0]
    columns := ["wind", "solar"]
    entry := fun _ c => if c = "wind" then 100 else if c = "solar" then 50 else 0 }

/-- The worked example's mapping: both columns map to `renewables` with
positive sign. -/
def exampleMapping : CurveMapping :=
  { keys := ["wind", "solar"]
    cat := fun _ => "renewables"
    sign := fun _ => 1 }

/-- The worked example's fraction table: `north` holds 0.3 and `south`
0.7 of `renewables`. -/
def exampleReg : Reg :=
  { nodes := ["north", "south"]
    columns := ["renewables"]
    frac := fun n _ => if n = "north" then 3/10 else 7/10 }

/-- The categorised worked-example curves. -/
def exampleMapped : Frame := categorise_curves exampleCurves exampleMapping

/-- The signed-sum accumulation of `categorise_curves` evaluates to the
sum over the member columns of the label. -/
theorem categorise_foldr_eq_sum (M : CurveMapping) (f : String → ℚ)
    (l : List String) (lab : String) :
    (l.foldr (fun c acc => if M.cat c = lab then M.sign c * f c + acc else acc) 0)
      = ((l.filter (fun c => M.cat c = lab)).map (fun c => M.sign c * f c)).sum := by
  induction l with
  | nil => simp
  | cons c t ih =>
      by_cases h : M.cat c = lab
      · simp [List.filter_cons, h, ih]
      · simp [List.filter_cons, h, ih]

/-- In a duplicate-free list, filtering for equality with a member keeps
exactly that member. -/
theorem filter_eq_self_mem {l : List String} {c : String}
    (hnd : l.Nodup) (hc : c ∈ l) :
    l.filter (fun x => x = c) = [c] := by
  induction l with
  | nil => cases hc
  | cons a t ih =>
      have hna : a ∉ t := (List.nodup_cons.mp hnd).1
      have hndt : t.Nodup := (List.nodup_cons.mp hnd).2
      rcases List.mem_cons.mp hc with h | h
      · subst h
        have hfil : t.filter (fun x => x = c) = [] := by
          apply List.filter_eq_nil_iff.mpr
          intro x hx
          simp only [decide_eq_true_eq]
          intro hxa
          exact hna (hxa ▸ hx)
        simp [List.filter_cons, hfil]
      · have hac : ¬ (a = c) := fun h' => hna (h' ▸ h)
        simp [List.filter_cons, hac, ih hndt h]

/-- A fraction table missing the `renewables` column of the worked
example's categorised curves. -/
def misalignedReg : Reg :=
  { nodes := ["north", "south"]
    columns := ["heaters"]
    frac := fun _ _ => 1 }

/-- C1 — Conservation: for every curve table and fraction table with
matching columns whose fractions for each column sum to 1 across all
nodes, `regionalise_node` succeeds on every node of the fraction table
and the per-node detailed curves summed over all nodes reproduce the
curve table elementwise. -/
theorem C1_conservation (curves : Frame) (reg : Reg)
    (hal : Aligned curves reg)
    (hsum : ∀ c ∈ curves.columns,
      (reg.nodes.map (fun n => reg.frac n c)).sum = 1) :
    (∀ n ∈ reg.nodes,
      regionalise_node curves reg n = .ok (nodeDetail curves reg n)) ∧
    ∀ t : Nat, ∀ c ∈ curves.columns,
      (reg.nodes.map (fun n => (nodeDetail curves reg n).entry t c)).sum
        = curves.entry t c := by
  constructor
  · intro n hn
    unfold regionalise_node
    rw [if_pos hal, if_pos hn]
  · intro t c hc
    simp only [nodeDetail]
    rw [List.sum_map_mul_left reg.nodes (fun n => reg.frac n c) (curves.entry t c)]
    rw [hsum c hc, mul_one]

/-- C1 witness: the worked example's fraction table (north 0.3, south
0.7) conserves the categorised `renewables` curve. -/
theorem C1_conservation_witness :
    (Aligned exampleMapped exampleReg ∧
      ∀ c ∈ exampleMapped.columns,
        (exampleReg.nodes.map (fun n => exampleReg.frac n c)).sum = 1) ∧
    ((∀ n ∈ exampleReg.nodes,
        regionalise_node exampleMapped exampleReg n
          = .ok (nodeDetail exampleMapped exampleReg n)) ∧
      ∀ t : Nat, ∀ c ∈ exampleMapped.columns,
        (exampleReg.nodes.map
            (fun n => (nodeDetail exampleMapped exampleReg n).entry t c)).sum
          = exampleMapped.entry t c) := by
  have hsum : ∀ c ∈ exampleMapped.columns,
      (exampleReg.nodes.map (fun n => exampleReg.frac n c)).sum = 1 := by
    simp +decide [exampleMapped, categorise_curves, exampleCurves,
      exampleMapping, exampleReg]
    norm_num
  exact ⟨⟨by decide, hsum⟩,
    C1_conservation exampleMapped exampleReg (by decide) hsum⟩

/-- C2 — Residual/detail complement: for matching columns and a node of
the fraction table, the residual excluding that node plus the node's
detailed curves equals the curve table elementwise. -/
theorem C2_residual_detail_complement (curves : Frame) (reg : Reg)
    (node : String) (hal : Aligned curves reg) (hn : node ∈ reg.nodes) :
    ∃ R D : Frame,
      regionalise_excluding curves reg node = .ok R ∧
      regionalise_node curves reg node = .ok D ∧
      R.index = curves.index ∧ R.columns = curves.columns ∧
      D.index = curves.index ∧ D.columns = curves.columns ∧
      ∀ t c, R.entry t c + D.entry t c = curves.entry t c := by
  refine ⟨{ index := curves.index
            columns := curves.columns
            entry := fun t c => curves.entry t c * (1 - reg.frac node c) },
          nodeDetail curves reg node, ?_, ?_, rfl, rfl, rfl, rfl,
          fun t c => ?_⟩
  · unfold regionalise_excluding
    rw [if_pos hal, if_pos hn]
  · unfold regionalise_node
    rw [if_pos hal, if_pos hn]
  · show curves.entry t c * (1 - reg.frac node c)
        + curves.entry t c * reg.frac node c = curves.entry t c
    ring

/-- C2 witness: at the worked example with excluded node `north`,
residual and detail complement each other. -/
theorem C2_residual_detail_complement_witness :
    (Aligned exampleMapped exampleReg ∧ "north" ∈ exampleReg.nodes) ∧
    ∃ R D : Frame,
      regionalise_excluding exampleMapped exampleReg "north" = .ok R ∧
      regionalise_node exampleMapped exampleReg "north" = .ok D ∧
      R.index = exampleMapped.index ∧ R.columns = exampleMapped.columns ∧
      D.index = exampleMapped.index ∧ D.columns = exampleMapped.columns ∧
      ∀ t c, R.entry t c + D.entry t c = exampleMapped.entry t c :=
  ⟨⟨by decide, by decide⟩,
    C2_residual_detail_complement exampleMapped exampleReg "north"
      (by decide) (by decide)⟩

/-- C3 — Postcondition of `regionalise_node`: for matching columns and a
node present in the fraction table, it returns a table with the curve
table's shape and row index whose every cell is
`curves[t,c] * fractions[node,c]`. -/
theorem C3_regionalise_node_postcondition (curves : Frame) (reg : Reg)
    (node : String) (hal : Aligned curves reg) (hn : node ∈ reg.nodes) :
    regionalise_node curves reg node = .ok (nodeDetail curves reg node) ∧
    (nodeDetail curves reg node).index = curves.index ∧
    (nodeDetail curves reg node).columns = curves.columns ∧
    ∀ t c, (nodeDetail curves reg node).entry t c
      = curves.entry t c * reg.frac node c := by
  refine ⟨?_, rfl, rfl, fun t c => rfl⟩
  unfold regionalise_node
  rw [if_pos hal, if_pos hn]

/-- C3 witness: in the worked example the categorised `renewables` curve
is 150, node `north` receives 45 and node `south` receives 105. -/
theorem C3_regionalise_node_witness :
    (Aligned exampleMapped exampleReg ∧ "north" ∈ exampleReg.nodes) ∧
    regionalise_node exampleMapped exampleReg "north"
      = .ok (nodeDetail exampleMapped exampleReg "north") ∧
    exampleMapped.entry 0 "renewables" = 150 ∧
    (nodeDetail exampleMapped exampleReg "north").entry 0 "renewables" = 45 ∧
    (nodeDetail exampleMapped exampleReg "south").entry 0 "renewables" = 105 := by
  refine ⟨⟨by decide, by decide⟩,
    (C3_regionalise_node_postcondition exampleMapped exampleReg "north"
      (by decide) (by decide)).1, ?_, ?_, ?_⟩
  · simp +decide [exampleMapped, categorise_curves, exampleCurves,
      exampleMapping]
    norm_num
  · simp +decide [nodeDetail, exampleMapped, categorise_curves,
      exampleCurves, exampleMapping, exampleReg]
    norm_num
  · simp +decide [nodeDetail, exampleMapped, categorise_curves,
      exampleCurves, exampleMapping, exampleReg]
    norm_num

/-- C5 — Error on misalignment: if the fraction table is missing a
column present in the curve table, `regionalise_curves` returns the
shape/alignment error and no (partial) result table. -/
theorem C5_misalignment_error (curves : Frame) (reg : Reg)
    (h : ∃ c ∈ curves.columns, c ∉ reg.columns) :
    regionalise_curves curves reg
      = .error "regionalise_curves: fraction columns do not match curve columns" := by
  obtain ⟨c, hc, hcr⟩ := h
  have hna : ¬ Aligned curves reg := fun hal => hcr (hal.1 c hc)
  unfold regionalise_curves
  rw [if_neg hna]

/-- C5 witness: a fraction table without the `renewables` column makes
`regionalise_curves` fail on the worked example's categorised curves. -/
theorem C5_misalignment_error_witness :
    (∃ c ∈ exampleMapped.columns, c ∉ misalignedReg.columns) ∧
    regionalise_curves exampleMapped misalignedReg
      = .error "regionalise_curves: fraction columns do not match curve columns" :=
  ⟨by decide, C5_misalignment_error exampleMapped misalignedReg (by decide)⟩

/-- C6 — Unknown-node error: `regionalise_node` called on an aligned
fraction table with a node identifier absent from the table's row index
returns the lookup error, never a silent result table. -/
theorem C6_unknown_node_error (curves : Frame) (reg : Reg) (node : String)
    (hal : Aligned curves reg) (hn : node ∉ reg.nodes) :
    regionalise_node curves reg node
      = .error "regionalise_node: unknown node identifier" := by
  unfold regionalise_node
  rw [if_pos hal, if_neg hn]

/-- C6 witness: node `east` is absent from the worked example's fraction
table, so `regionalise_node` fails with the lookup error. -/
theorem C6_unknown_node_error_witness :
    (Aligned exampleMapped exampleReg ∧ "east" ∉ exampleReg.nodes) ∧
    regionalise_node exampleMapped exampleReg "east"
      = .error "regionalise_node: unknown node identifier" :=
  ⟨⟨by decide, by decide⟩,
    C6_unknown_node_error exampleMapped exampleReg "east"
      (by decide) (by decide)⟩

/-- C9 — Residual takes no node argument: `regionalise_curves` is a
function of the curve table and the fraction table alone; on aligned
inputs its residual output is the curve table scaled per column by the
fraction sum over all nodes, which coincides with the sum of the
per-node details that `regionalise_node` provides separately. -/
theorem C9_residual_no_node_argument (curves : Frame) (reg : Reg)
    (hal : Aligned curves reg) :
    regionalise_curves curves reg = .ok (residualFrame curves reg) ∧
    ∀ t c, (residualFrame curves reg).entry t c
      = (reg.nodes.map (fun n => (nodeDetail curves reg n).entry t c)).sum := by
  constructor
  · unfold regionalise_curves
    rw [if_pos hal]
  · intro t c
    simp only [residualFrame, nodeDetail]
    rw [List.sum_map_mul_left reg.nodes (fun n => reg.frac n c) (curves.entry t c)]

/-- C9 witness: the residual of the worked example is produced from the
curves and fractions alone and equals the across-node detail sum. -/
theorem C9_residual_no_node_argument_witness :
    Aligned exampleMapped exampleReg ∧
    (regionalise_curves exampleMapped exampleReg
        = .ok (residualFrame exampleMapped exampleReg) ∧
      ∀ t c, (residualFrame exampleMapped exampleReg).entry t c
        = (exampleReg.nodes.map
            (fun n => (nodeDetail exampleMapped exampleReg n).entry t c)).sum) :=
  ⟨by decide, C9_residual_no_node_argument exampleMapped exampleReg (by decide)⟩

/-- C4 — Postcondition of `categorise_curves`: the output keeps the row
index; it has exactly one column per distinct category label of the
mapped input columns, in deterministic first-seen order; each output
column is the signed sum of its member input columns; and when exactly
the columns `a` and `b` map to label `X` with positive sign, column `X`
is the elementwise sum of columns `a` and `b`. -/
theorem C4_categorise_postcondition (curves : Frame)
    (mapping : CurveMapping) :
    (categorise_curves curves mapping).index = curves.index ∧
    (categorise_curves curves mapping).columns.Nodup ∧
    (∀ l, l ∈ (categorise_curves curves mapping).columns ↔
      ∃ c ∈ curves.columns, c ∈ mapping.keys ∧ mapping.cat c = l) ∧
    (∀ t l, (categorise_curves curves mapping).entry t l
      = (((curves.columns.filter (fun c => c ∈ mapping.keys)).filter
            (fun c => mapping.cat c = l)).map
          (fun c => mapping.sign c * curves.entry t c)).sum) ∧
    (∀ a b X t,
      (curves.columns.filter (fun c => c ∈ mapping.keys)).filter
          (fun c => mapping.cat c = X) = [a, b] →
      mapping.sign a = 1 → mapping.sign b = 1 →
      (categorise_curves curves mapping).entry t X
        = curves.entry t a + curves.entry t b) := by
  have hentry : ∀ t l, (categorise_curves curves mapping).entry t l
      = (((curves.columns.filter (fun c => c ∈ mapping.keys)).filter
            (fun c => mapping.cat c = l)).map
          (fun c => mapping.sign c * curves.entry t c)).sum := by
    intro t l
    simp only [categorise_curves]
    exact categorise_foldr_eq_sum mapping (fun c => curves.entry t c) _ l
  refine ⟨rfl, ?_, ?_, hentry, ?_⟩
  · simp only [categorise_curves]
    exact List.nodup_dedup _
  · intro l
    simp only [categorise_curves, List.mem_dedup, List.mem_map,
      List.mem_filter, decide_eq_true_eq]
    constructor
    · rintro ⟨c, ⟨hc, hk⟩, hl⟩
      exact ⟨c, hc, hk, hl⟩
    · rintro ⟨c, hc, hk, hl⟩
      exact ⟨c, ⟨hc, hk⟩, hl⟩
  · intro a b X t hfil ha hb
    rw [hentry t X, hfil]
    simp [ha, hb]

/-- C4 witness: in the worked example `wind` and `solar` map to
`renewables` with positive sign, and the categorised `renewables` column
equals their elementwise sum. -/
theorem C4_categorise_postcondition_witness :
    ((exampleCurves.columns.filter (fun c => c ∈ exampleMapping.keys)).filter
        (fun c => exampleMapping.cat c = "renewables") = ["wind", "solar"]) ∧
    (categorise_curves exampleCurves exampleMapping).entry 0 "renewables"
      = exampleCurves.entry 0 "wind" + exampleCurves.entry 0 "solar" :=
  ⟨by decide,
    (C4_categorise_postcondition exampleCurves exampleMapping).2.2.2.2
      "wind" "solar" "renewables" 0 (by decide) (by decide) (by decide)⟩

/-- C7 — Identity mapping is a no-op: if the mapping sends each curve
column to itself with sign 1 and the columns are duplicate-free, the
categorised table has exactly the curve table's columns with every value
unchanged. -/
theorem C7_identity_mapping_noop (curves : Frame) (mapping : CurveMapping)
    (hnd : curves.columns.Nodup)
    (hkeys : ∀ c ∈ curves.columns, c ∈ mapping.keys)
    (hcat : ∀ c ∈ curves.columns, mapping.cat c = c)
    (hsign : ∀ c ∈ curves.columns, mapping.sign c = 1) :
    (categorise_curves curves mapping).index = curves.index ∧
    (categorise_curves curves mapping).columns = curves.columns ∧
    ∀ t : Nat, ∀ c ∈ curves.columns,
      (categorise_curves curves mapping).entry t c = curves.entry t c := by
  have hshared : curves.columns.filter (fun c => c ∈ mapping.keys)
      = curves.columns :=
    List.filter_eq_self.mpr (fun c hc => by
      simp only [decide_eq_true_eq]; exact hkeys c hc)
  refine ⟨rfl, ?_, ?_⟩
  · simp only [categorise_curves, hshared]
    have hmap : curves.columns.map mapping.cat = curves.columns := by
      rw [List.map_congr_left hcat]
      exact List.map_id curves.columns
    rw [hmap, List.Nodup.dedup hnd]
  · intro t c hc
    simp only [categorise_curves, hshared]
    rw [categorise_foldr_eq_sum mapping (fun x => curves.entry t x)
      curves.columns c]
    have hfc : curves.columns.filter (fun x => mapping.cat x = c)
        = curves.columns.filter (fun x => x = c) :=
      List.filter_congr (fun x hx => by simp [hcat x hx])
    rw [hfc, filter_eq_self_mem hnd hc]
    simp [hsign c hc]

/-- The identity mapping on the worked example's columns. -/
def identityMapping : CurveMapping :=
  { keys := ["wind", "solar"]
    cat := fun c => c
    sign := fun _ => 1 }

/-- C7 witness: categorising the worked example's curves with the
identity mapping reproduces them unchanged. -/
theorem C7_identity_mapping_noop_witness :
    (exampleCurves.columns.Nodup ∧
      (∀ c ∈ exampleCurves.columns, c ∈ identityMapping.keys) ∧
      (∀ c ∈ exampleCurves.columns, identityMapping.cat c = c) ∧
      ∀ c ∈ exampleCurves.columns, identityMapping.sign c = 1) ∧
    ((categorise_curves exampleCurves identityMapping).index
        = exampleCurves.index ∧
      (categorise_curves exampleCurves identityMapping).columns
        = exampleCurves.columns ∧
      ∀ t : Nat, ∀ c ∈ exampleCurves.columns,
        (categorise_curves exampleCurves identityMapping).entry t c
          = exampleCurves.entry t c) :=
  ⟨⟨by decide, by decide, by decide, fun c _ => rfl⟩,
    C7_identity_mapping_noop exampleCurves identityMapping
      (by decide) (by decide) (by decide) (fun c _ => rfl)⟩

/-- C8 — Determinism: each of the three transforms is a pure function of
its arguments; two calls with equal inputs return equal outputs. -/
theorem C8_determinism (C C' : Frame) (M M' : CurveMapping) (F F' : Reg)
    (n n' : String) (hC : C = C') (hM : M = M') (hF : F = F')
    (hn : n = n') :
    categorise_curves C M = categorise_curves C' M' ∧
    regionalise_curves C F = regionalise_curves C' F' ∧
    regionalise_node C F n = regionalise_node C' F' n' := by
  subst hC; subst hM; subst hF; subst hn
  exact ⟨rfl, rfl, rfl⟩

/-- C8 witness: repeating the worked example's calls with the same
inputs yields the same outputs. -/
theorem C8_determinism_witness :
    categorise_curves exampleCurves exampleMapping
      = categorise_curves exampleCurves exampleMapping ∧
    regionalise_curves exampleMapped exampleReg
      = regionalise_curves exampleMapped exampleReg ∧
    regionalise_node exampleMapped exampleReg "north"
      = regionalise_node exampleMapped exampleReg "north" := by
  have h := C8_determinism exampleCurves exampleCurves exampleMapping
    exampleMapping exampleReg exampleReg "north" "north" rfl rfl rfl rfl
  exact ⟨h.1, (C8_determinism exampleMapped exampleMapped exampleMapping
    exampleMapping exampleReg exampleReg "north" "north"
    rfl rfl rfl rfl).2.1, (C8_determinism exampleMapped exampleMapped
    exampleMapping exampleMapping exampleReg exampleReg "north" "north"
    rfl rfl rfl rfl).2.2⟩

/-- C10 — Cache invalidation: changing any scenario input parameter
through the client resets the cached result curves, and the next access
of the result-curve property requests a fresh evaluation of the updated
parameters from the remote service (and re-caches it), never a stale
pre-change curve. -/
theorem C10_cache_reset_on_parameter_change
    (etm : Nat → List (String × ℚ) → Frame) (s : ClientState)
    (vals : List (String × ℚ)) :
    (set_input_parameters s vals).cached_ecurves = none ∧
    (hourly_electricity_curves etm (set_input_parameters s vals)).fst
      = etm s.scenario_id (updateParams s.input_params vals) ∧
    (hourly_electricity_curves etm
        (set_input_parameters s vals)).snd.cached_ecurves
      = some (etm s.scenario_id (updateParams s.input_params vals)) :=
  ⟨rfl, rfl, rfl⟩
